import Mathlib

/-!
Verification of the bms-join repository (src/bms.rs, src/line.rs, src/main.rs).

The Rust code is shallowly embedded: machine integers (u32, u64) become Nat
with explicit overflow checks where the Rust code can fail, fallible code
returns Except/Option, and functions that can panic (out-of-range slicing,
.unwrap()/.expect()) return a PResult that separates a normal return from a
panic.  Strings are modelled at the char level; every string the claims touch
is ASCII, where Rust byte indices and char indices coincide.
-/

deriving instance DecidableEq for Except

namespace BmsJoin

/-- Outcome of running a piece of Rust code that may panic: either a normal
value or an aborted process.  A panic is not a returned error value. -/
inductive PResult (α : Type) where
  | ok (v : α)
  | panicked
deriving DecidableEq, Repr

/-! ## ID codec (src/bms.rs) -/

/-- Rust char::to_digit(36): decimal digits and letters (either case) up to
value 35. -/
def charToDigit36 (c : Char) : Option Nat :=
  if '0' ≤ c && c ≤ '9' then some (c.toNat - 48)
  else if 'a' ≤ c && c ≤ 'z' then some (c.toNat - 97 + 10)
  else if 'A' ≤ c && c ≤ 'Z' then some (c.toNat - 65 + 10)
  else none

/-- Rust char::to_digit(10). -/
def charToDigit10 (c : Char) : Option Nat :=
  if '0' ≤ c && c ≤ '9' then some (c.toNat - 48) else none

/-- Digit accumulation loop of u64::from_str_radix(s, 36); the result must
fit in a u64, otherwise the parse reports overflow. -/
def radix36Go : List Char → Nat → Except Unit Nat
  | [], acc => .ok acc
  | c :: cs, acc =>
    match charToDigit36 c with
    | none => .error ()
    | some d =>
      if acc * 36 + d < 2 ^ 64 then radix36Go cs (acc * 36 + d) else .error ()

/-- u64::from_str_radix(·, 36) on a char list: an optional leading '+'
(a '-' is not accepted for an unsigned type), then at least one digit. -/
def radix36Parse (cs : List Char) : Except Unit Nat :=
  match cs with
  | [] => .error ()
  | c :: rest =>
    if c = '+' then
      if rest = [] then .error () else radix36Go rest 0
    else radix36Go (c :: rest) 0

/-- src/bms.rs as_id: uppercase the input, then u64::from_str_radix(·, 36).
Rust to_uppercase maps each character; on the ASCII tokens used by this
format that is Char.toUpper pointwise. -/
def as_id (s : String) : Except Unit Nat :=
  radix36Parse (s.data.map Char.toUpper)

/-- Digit accumulation loop of str::parse::<u32>() (radix 10, u32 range). -/
def radix10Go : List Char → Nat → Except Unit Nat
  | [], acc => .ok acc
  | c :: cs, acc =>
    match charToDigit10 c with
    | none => .error ()
    | some d =>
      if acc * 10 + d < 2 ^ 32 then radix10Go cs (acc * 10 + d) else .error ()

/-- str::parse::<u32>() on a char list: optional leading '+', then at least
one decimal digit. -/
def radix10Parse (cs : List Char) : Except Unit Nat :=
  match cs with
  | [] => .error ()
  | c :: rest =>
    if c = '+' then
      if rest = [] then .error () else radix10Go rest 0
    else radix10Go (c :: rest) 0

/-- One digit of the radix_fmt display: 0-9 then lowercase a-z
(radix_fmt renders letters in lowercase). -/
def digitChar36 (d : Nat) : Char :=
  if d < 10 then Char.ofNat (48 + d) else Char.ofNat (97 + d - 10)

/-- Fuel-based digit loop for base 36 (structural recursion keeps it
kernel-computable; fuel n+1 always suffices because n/36 < n). -/
def toDigitsGo36 : Nat → Nat → List Char
  | 0, _ => []
  | fuel + 1, n =>
    if n < 36 then [digitChar36 n]
    else toDigitsGo36 fuel (n / 36) ++ [digitChar36 (n % 36)]

/-- Base-36 digit string of a number, most significant digit first, as
produced by radix_36(id) in src/bms.rs. -/
def toDigits36 (n : Nat) : List Char := toDigitsGo36 (n + 1) n

/-- Decimal digit char. -/
def digitChar10 (d : Nat) : Char := Char.ofNat (48 + d)

/-- Fuel-based digit loop for base 10. -/
def toDigitsGo10 : Nat → Nat → List Char
  | 0, _ => []
  | fuel + 1, n =>
    if n < 10 then [digitChar10 n]
    else toDigitsGo10 fuel (n / 10) ++ [digitChar10 (n % 10)]

/-- Decimal digit string of a number, most significant digit first (the
Display rendering of a Rust unsigned integer). -/
def toDigits10 (n : Nat) : List Char := toDigitsGo10 (n + 1) n

/-- Left zero padding to a minimum width, the "0>w" / "0w" format directives. -/
def zeroPad (w : Nat) (ds : List Char) : List Char :=
  List.replicate (w - ds.length) '0' ++ ds

/-- src/bms.rs as_str: format!("{:0>2}", radix_36(id)).to_uppercase(), then a
(dead) branch that prepends one more '0' if the result has length 1. -/
def as_str (id : Nat) : String :=
  let ret := String.mk ((zeroPad 2 (toDigits36 id)).map Char.toUpper)
  if ret.length = 1 then String.mk ('0' :: ret.data) else ret

/-! ## Line model (src/line.rs) -/

/-- The character class [A-Za-z0-9] of the note regex. -/
def isAlnumChar (c : Char) : Bool :=
  ('0' ≤ c && c ≤ '9') || ('a' ≤ c && c ≤ 'z') || ('A' ≤ c && c ≤ 'Z')

/-- The regex "#[A-Za-z0-9][A-Za-z0-9][A-Za-z0-9][A-Za-z0-9][A-Za-z0-9]:"
matching at the head of the given char list. -/
def matchesNoteAt : List Char → Bool
  | '#' :: c1 :: c2 :: c3 :: c4 :: c5 :: ':' :: _ =>
    isAlnumChar c1 && isAlnumChar c2 && isAlnumChar c3 && isAlnumChar c4 &&
      isAlnumChar c5
  | _ => false

/-- Regex::is_match is unanchored: the pattern may match at any position. -/
def hasNoteMatch : List Char → Bool
  | [] => false
  | c :: cs => matchesNoteAt (c :: cs) || hasNoteMatch cs

/-- src/line.rs Note::line_is_note. -/
def line_is_note (s : String) : Bool := hasNoteMatch s.data

structure Note where
  measure : Nat
  channel : Nat
  keysounds : List Nat
deriving DecidableEq, Repr

structure GenericLine where
  line : String
deriving DecidableEq, Repr

inductive Line where
  | generic (g : GenericLine)
  | note (n : Note)
deriving DecidableEq, Repr

/-- line.find(':') followed by taking line[pos+1..]: the chars after the
first ':' when one exists. -/
def afterColon : List Char → Option (List Char)
  | [] => none
  | c :: cs => if c = ':' then some cs else afterColon cs

/-- The keysound loop of Note::new: chunks of two chars left to right.  The
slice body[i..i+2] panics when only one char is left (odd-length body); a
codec failure on a chunk makes Note::new return None (ok none here). -/
def collectKeysounds : List Char → PResult (Option (List Nat))
  | [] => .ok (some [])
  | [_] => .panicked
  | c1 :: c2 :: rest =>
    match as_id (String.mk [c1, c2]) with
    | .error _ => .ok none
    | .ok v =>
      match collectKeysounds rest with
      | .panicked => .panicked
      | .ok none => .ok none
      | .ok (some vs) => .ok (some (v :: vs))

/-- src/line.rs Note::new.  line[1..4] is parsed as the measure and
line[4..6] as the channel, both with str::parse::<u32>() (decimal); a parse
failure returns None.  The body after the first ':' is decoded in
two-char chunks. -/
def Note.new (line : String) : PResult (Option Note) :=
  if line_is_note line = false then .ok none
  else
    let cs := line.data
    match radix10Parse ((cs.drop 1).take 3) with
    | .error _ => .ok none
    | .ok measure =>
      match radix10Parse ((cs.drop 4).take 2) with
      | .error _ => .ok none
      | .ok channel =>
        match afterColon cs with
        | none => .ok (some { measure := measure, channel := channel, keysounds := [] })
        | some body =>
          match collectKeysounds body with
          | .panicked => .panicked
          | .ok none => .ok none
          | .ok (some ks) =>
            .ok (some { measure := measure, channel := channel, keysounds := ks })

/-- src/line.rs Line::new: if the note regex matches and Note::new succeeds,
the line is a Note; otherwise it is a Generic line holding the raw text. -/
def Line.new (line : String) : PResult Line :=
  if line_is_note line then
    match Note.new line with
    | .panicked => .panicked
    | .ok (some n) => .ok (.note n)
    | .ok none => .ok (.generic { line := line })
  else .ok (.generic { line := line })

/-- src/line.rs Note::replace_keysounds.  Rust mutates self and returns
Option<()>; here the updated note is returned alongside the signal.  The
as_id("10").unwrap() threshold evaluates to 36; the unwrap cannot fail, so
the error arm below is unreachable. -/
def Note.replace_keysounds (n : Note) (old_id new_id : Nat) : Option Unit × Note :=
  match as_id "10" with
  | .error _ => (none, n)
  | .ok threshold =>
    if n.channel < threshold && n.channel % 36 != 1 then (none, n)
    else
      (some (),
        { n with keysounds := n.keysounds.map fun k => if k = old_id then new_id else k })

/-- One slot of the Display impl for Note: format!("{:2}", as_str(keysound)),
left-aligned space padding to width 2 (never needed, as_str has length 2). -/
def fmtWidth2 (s : String) : List Char :=
  if s.data.length < 2 then s.data ++ List.replicate (2 - s.data.length) ' '
  else s.data

/-- The joined keysound string of the Display impl for Note. -/
def keysoundChars (ks : List Nat) : List Char :=
  (ks.map fun k => fmtWidth2 (as_str k)).flatten

/-- src/line.rs impl Display for Note:
format!("#{:03}{:02}:{}", measure, channel, keysounds_string). -/
def Note.toText (n : Note) : String :=
  String.mk ('#' :: zeroPad 3 (toDigits10 n.measure) ++ zeroPad 2 (toDigits10 n.channel)
    ++ ':' :: keysoundChars n.keysounds)

/-- src/line.rs impl Display for Line: a Generic line renders as its text
with trailing whitespace trimmed, a Note re-renders from its fields. -/
def Line.toText : Line → String
  | .generic g => g.line.trimRight
  | .note n => n.toText

/-- src/line.rs GenericLine::len: the byte length of the stored line. -/
def GenericLine.len (g : GenericLine) : Nat := g.line.utf8ByteSize

/-- src/line.rs GenericLine::is_empty: returns self.len() > 0. -/
def GenericLine.is_empty (g : GenericLine) : Bool := decide (0 < g.len)

/-! ## Document model (src/main.rs) -/

structure Keysound where
  keysound_id : Nat
  keysound_file : String
deriving DecidableEq, Repr

/-- src/main.rs Keysound::from_line.  Rust takes the byte slices line[4..6]
(the ID token) and line[7..] (the filename); a too-short line makes the
slicing panic, a bad ID token is returned as Err by the ? operator. -/
def Keysound.from_line (line : String) : PResult (Except Unit Keysound) :=
  let cs := line.data
  if cs.length < 6 then .panicked
  else if cs.length < 7 then .panicked
  else
    match as_id (String.mk ((cs.drop 4).take 2)) with
    | .error e => .ok (.error e)
    | .ok id => .ok (.ok { keysound_id := id, keysound_file := String.mk (cs.drop 7) })

/-- src/main.rs impl Display for Keysound:
format!("#WAV{} {}", as_str(id), file). -/
def Keysound.toText (k : Keysound) : String :=
  String.mk ('#' :: 'W' :: 'A' :: 'V' :: (as_str k.keysound_id).data
    ++ ' ' :: k.keysound_file.data)

structure BMSFile where
  head : List Line
  keysounds : List Keysound
  tail : List Line
deriving DecidableEq, Repr

/-- line.starts_with("#WAV"): the first four bytes are '#','W','A','V'. -/
def isWavLine (l : String) : Bool := l.data.take 4 == ['#', 'W', 'A', 'V']

/-- The for_each body of BMSFile::from_path, with the three accumulators
made explicit.  A #WAV line is parsed with
Keysound::from_line(..).expect("Can't parse line.") — a parse error panics;
any other line goes to head while the declaration table is still empty and
to tail afterwards. -/
def BMSFile.from_lines_aux : List String → List Line → List Keysound → List Line →
    PResult BMSFile
  | [], h, k, t => .ok { head := h, keysounds := k, tail := t }
  | l :: rest, h, k, t =>
    if isWavLine l then
      match Keysound.from_line l with
      | .panicked => .panicked
      | .ok (.error _) => .panicked
      | .ok (.ok ks) => BMSFile.from_lines_aux rest h (k ++ [ks]) t
    else if k.isEmpty then
      match Line.new l with
      | .panicked => .panicked
      | .ok ln => BMSFile.from_lines_aux rest (h ++ [ln]) k t
    else
      match Line.new l with
      | .panicked => .panicked
      | .ok ln => BMSFile.from_lines_aux rest h k (t ++ [ln])

/-- src/main.rs BMSFile::from_path, abstracted over the line sequence read
from the file (I/O excluded). -/
def BMSFile.from_lines (ls : List String) : PResult BMSFile :=
  BMSFile.from_lines_aux ls [] [] []

/-- src/main.rs BMSFile::get_keysound: a linear find over the declaration
vector in file order. -/
def BMSFile.get_keysound (b : BMSFile) (id : Nat) : Option Keysound :=
  b.keysounds.find? fun ks => ks.keysound_id == id

/-- The string list built by BMSFile::to_bytes before joining with newlines:
head, then every declaration, then tail. -/
def BMSFile.serializeStrings (b : BMSFile) : List String :=
  b.head.map Line.toText ++ b.keysounds.map Keysound.toText ++ b.tail.map Line.toText

/-- src/main.rs BMSFile::to_bytes: the serialized strings joined with "\n". -/
def BMSFile.to_bytes (b : BMSFile) : String :=
  String.intercalate "\n" b.serializeStrings

/-! ## Spec-side definitions used to state the claims -/

/-- The anchored grammar claimed by the spec for Note Lines:
a match of #[A-Za-z0-9]{5}: at position 0 of the line. -/
def anchoredNoteMatch (s : String) : Bool := matchesNoteAt s.data

/-- Lines routed to head per the spec: the lines before the first
declaration. -/
def headLines (ls : List String) : List String :=
  ls.takeWhile fun l => !isWavLine l

/-- The declaration-shaped lines of the input, in order. -/
def declLines (ls : List String) : List String := ls.filter isWavLine

/-- The non-declaration lines strictly after the first declaration line. -/
def tailLines (ls : List String) : List String :=
  (ls.dropWhile fun l => !isWavLine l).filter fun l => !isWavLine l

/-- Decimal digit character class. -/
def isDecDigitChar (c : Char) : Bool := '0' ≤ c && c ≤ '9'

/-- Characters of a canonical keysound token: decimal digits and uppercase
letters. -/
def isCanonSlotChar (c : Char) : Bool :=
  ('0' ≤ c && c ≤ '9') || ('A' ≤ c && c ≤ 'Z')

/-- A canonically written Note Line: '#', three decimal measure digits, two
decimal channel digits, ':', then an even number of canonical slot chars. -/
def wfCanonicalNote (s : String) : Bool :=
  match s.data with
  | '#' :: d1 :: d2 :: d3 :: c1 :: c2 :: ':' :: body =>
    isDecDigitChar d1 && isDecDigitChar d2 && isDecDigitChar d3 &&
      isDecDigitChar c1 && isDecDigitChar c2 &&
      body.all isCanonSlotChar && body.length % 2 == 0
  | _ => false

/-- The canonical character of a base-36 digit value: '0'-'9' then 'A'-'Z'. -/
def canonChar (d : Nat) : Char :=
  if d < 10 then Char.ofNat (48 + d) else Char.ofNat (55 + d)

/-! ## Character-level facts -/

theorem char_le_iff {a b : Char} : a ≤ b ↔ a.toNat ≤ b.toNat := .rfl

theorem canonChar_facts : ∀ d, d < 36 →
    Char.toUpper (digitChar36 d) = canonChar d ∧
    Char.toUpper (canonChar d) = canonChar d ∧
    charToDigit36 (canonChar d) = some d ∧
    canonChar d ≠ '+' ∧ canonChar d ≠ ':' ∧
    isAlnumChar (canonChar d) = true ∧
    isCanonSlotChar (canonChar d) = true := by decide

theorem decChar_facts : ∀ d, d < 10 →
    charToDigit10 (canonChar d) = some d ∧
    isDecDigitChar (canonChar d) = true ∧
    digitChar10 d = canonChar d := by decide

theorem exists_canon_of_isCanonSlotChar {c : Char} (h : isCanonSlotChar c = true) :
    ∃ d, d < 36 ∧ c = canonChar d := by
  have c0 : ('0' : Char).toNat = 48 := rfl
  have c9 : ('9' : Char).toNat = 57 := rfl
  have cA : ('A' : Char).toNat = 65 := rfl
  have cZ : ('Z' : Char).toNat = 90 := rfl
  simp only [isCanonSlotChar, Bool.or_eq_true, Bool.and_eq_true, decide_eq_true_eq] at h
  rcases h with ⟨h1, h2⟩ | ⟨h1, h2⟩
  · rw [char_le_iff, c0] at h1; rw [char_le_iff, c9] at h2
    refine ⟨c.toNat - 48, by omega, ?_⟩
    have he : 48 + (c.toNat - 48) = c.toNat := by omega
    simp only [canonChar]
    rw [if_pos (by omega), he, Char.ofNat_toNat]
  · rw [char_le_iff, cA] at h1; rw [char_le_iff, cZ] at h2
    refine ⟨c.toNat - 55, by omega, ?_⟩
    have hge : ¬ c.toNat - 55 < 10 := by omega
    have he : 55 + (c.toNat - 55) = c.toNat := by omega
    simp only [canonChar]
    rw [if_neg hge, he, Char.ofNat_toNat]

theorem exists_dec_of_isDecDigitChar {c : Char} (h : isDecDigitChar c = true) :
    ∃ d, d < 10 ∧ c = canonChar d := by
  have c0 : ('0' : Char).toNat = 48 := rfl
  have c9 : ('9' : Char).toNat = 57 := rfl
  simp only [isDecDigitChar, Bool.and_eq_true, decide_eq_true_eq] at h
  rcases h with ⟨h1, h2⟩
  rw [char_le_iff, c0] at h1; rw [char_le_iff, c9] at h2
  refine ⟨c.toNat - 48, by omega, ?_⟩
  have he : 48 + (c.toNat - 48) = c.toNat := by omega
  simp only [canonChar]
  rw [if_pos (by omega), he, Char.ofNat_toNat]

/-! ## Codec lemmas -/

theorem toDigitsGo36_small {f n : Nat} (hf : 0 < f) (h : n < 36) :
    toDigitsGo36 f n = [digitChar36 n] := by
  obtain ⟨m, rfl⟩ : ∃ m, f = m + 1 := ⟨f - 1, by omega⟩
  simp [toDigitsGo36, h]

theorem toDigits36_small {n : Nat} (h : n < 36) : toDigits36 n = [digitChar36 n] :=
  toDigitsGo36_small (by omega) h

theorem toDigits36_two {n : Nat} (h1 : 36 ≤ n) (h2 : n < 1296) :
    toDigits36 n = [digitChar36 (n / 36), digitChar36 (n % 36)] := by
  rw [toDigits36]
  show toDigitsGo36 (n + 1) n = _
  rw [toDigitsGo36, if_neg (by omega), toDigitsGo36_small (by omega) (by omega)]
  rfl

theorem as_str_canon {id : Nat} (h : id < 1296) :
    as_str id = String.mk [canonChar (id / 36), canonChar (id % 36)] := by
  have hq : id / 36 < 36 := by omega
  have hr : id % 36 < 36 := by omega
  have fq := canonChar_facts (id / 36) hq
  have fr := canonChar_facts (id % 36) hr
  by_cases hs : id < 36
  · have hq0 : id / 36 = 0 := by omega
    have hr0 : id % 36 = id := by omega
    have f0 := canonChar_facts 0 (by omega)
    simp only [as_str, zeroPad, toDigits36_small hs, hq0, hr0]
    have : (2 - ([digitChar36 id] : List Char).length) = 1 := by simp
    rw [this]
    simp only [List.replicate, List.map, List.cons_append, List.nil_append]
    have hu0 : Char.toUpper '0' = '0' := rfl
    have hc0 : canonChar 0 = '0' := rfl
    rw [hu0, (canonChar_facts id (by omega)).1]
    simp [String.length, hc0]
  · simp only [as_str, zeroPad, toDigits36_two (by omega) h]
    have : (2 - ([digitChar36 (id / 36), digitChar36 (id % 36)] : List Char).length) = 0 := by
      simp
    rw [this]
    simp only [List.replicate, List.map, List.nil_append]
    rw [fq.1, fr.1]
    simp [String.length]

theorem as_id_canonPair {d1 d2 : Nat} (h1 : d1 < 36) (h2 : d2 < 36) :
    as_id (String.mk [canonChar d1, canonChar d2]) = .ok (36 * d1 + d2) := by
  have f1 := canonChar_facts d1 h1
  have f2 := canonChar_facts d2 h2
  simp only [as_id, List.map, f1.2.1, f2.2.1]
  rw [radix36Parse, if_neg (by simp [f1.2.2.2.1])]
  rw [radix36Go, f1.2.2.1]
  simp only []
  rw [if_pos (by omega)]
  rw [radix36Go, f2.2.2.1]
  simp only []
  rw [if_pos (by omega)]
  rw [radix36Go]
  congr 1
  omega

/-- Claim C2: for every id in [0, 1295], decoding the encoding yields the id
back, and the encoded string has length exactly 2. -/
theorem codec_round_trip (id : Nat) (h : id ≤ 1295) :
    as_id (as_str id) = .ok id ∧ (as_str id).length = 2 := by
  have h' : id < 1296 := by omega
  rw [as_str_canon h']
  refine ⟨?_, by simp⟩
  rw [as_id_canonPair (by omega) (by omega)]
  congr 1
  omega

/-- Witness for C2 at id = 1000 (encodes to "RS"). -/
theorem codec_round_trip_witness :
    as_id (as_str 1000) = .ok 1000 ∧ (as_str 1000).length = 2 :=
  codec_round_trip 1000 (by decide)

/-! ## Claim C1: channel-filtered replace -/

theorem as_id_ten : as_id "10" = .ok 36 := by decide

/-- Claim C1: replace_keysounds refuses exactly when the channel is below 36
and channel mod 36 is not 1; a refusal leaves the note untouched, and a
success rewrites precisely the slots equal to old_id to new_id, preserving
every other slot, the measure, the channel, and the slot count. -/
theorem replace_keysounds_spec (n : Note) (old_id new_id : Nat) :
    ((n.replace_keysounds old_id new_id).1 = none ↔
      n.channel < 36 ∧ n.channel % 36 ≠ 1) ∧
    ((n.replace_keysounds old_id new_id).1 = none →
      (n.replace_keysounds old_id new_id).2 = n) ∧
    ((n.replace_keysounds old_id new_id).1 ≠ none →
      (n.replace_keysounds old_id new_id).1 = some () ∧
      (n.replace_keysounds old_id new_id).2.measure = n.measure ∧
      (n.replace_keysounds old_id new_id).2.channel = n.channel ∧
      (n.replace_keysounds old_id new_id).2.keysounds.length = n.keysounds.length ∧
      ∀ i : Nat, (n.replace_keysounds old_id new_id).2.keysounds[i]? =
        n.keysounds[i]?.map fun k => if k = old_id then new_id else k) := by
  by_cases h1 : n.channel < 36
  · by_cases h2 : n.channel % 36 = 1
    · simp [Note.replace_keysounds, as_id_ten, h1, h2]
    · simp [Note.replace_keysounds, as_id_ten, h1, h2]
  · simp [Note.replace_keysounds, as_id_ten, h1]

/-- Witness for C1 at a concrete note on an eligible channel (37). -/
theorem replace_keysounds_spec_witness :
    (((Note.mk 1 37 [18, 19, 20]).replace_keysounds 18 19).1 = none ↔
      (37 : Nat) < 36 ∧ (37 : Nat) % 36 ≠ 1) ∧
    (((Note.mk 1 37 [18, 19, 20]).replace_keysounds 18 19).1 = none →
      ((Note.mk 1 37 [18, 19, 20]).replace_keysounds 18 19).2 = Note.mk 1 37 [18, 19, 20]) ∧
    (((Note.mk 1 37 [18, 19, 20]).replace_keysounds 18 19).1 ≠ none →
      ((Note.mk 1 37 [18, 19, 20]).replace_keysounds 18 19).1 = some () ∧
      ((Note.mk 1 37 [18, 19, 20]).replace_keysounds 18 19).2.measure = 1 ∧
      ((Note.mk 1 37 [18, 19, 20]).replace_keysounds 18 19).2.channel = 37 ∧
      ((Note.mk 1 37 [18, 19, 20]).replace_keysounds 18 19).2.keysounds.length =
        ([18, 19, 20] : List Nat).length ∧
      ∀ i : Nat, ((Note.mk 1 37 [18, 19, 20]).replace_keysounds 18 19).2.keysounds[i]? =
        ([18, 19, 20] : List Nat)[i]?.map fun k => if k = 18 then 19 else k) :=
  replace_keysounds_spec (Note.mk 1 37 [18, 19, 20]) 18 19

/-! ## Claim C3: odd-length note body -/

/-- Claim C3 failing input: the line "#00101:A" matches the note regex and
has a one-character body; the slice body[0..2] is out of bounds, so
Line::new panics instead of degrading the line to an Opaque line. -/
theorem line_new_odd_body_panics : Line.new "#00101:A" = .panicked := by decide

/-! ## Claim C4: the note grammar is not anchored -/

/-- Counterexample to C4: "#00101#00011:" does not match the anchored
grammar (character 6 is '#', not ':'), yet it is classified as a Note Line
because Regex::is_match finds the pattern at position 6.  Measure and
channel are still read from the fixed positions 1..4 and 4..6. -/
theorem classify_unanchored_counterexample :
    Line.new "#00101#00011:" = .ok (.note ⟨1, 1, []⟩) ∧
    anchoredNoteMatch "#00101#00011:" = false := by decide

/-- Claim C4 (amended): classify returns a Note only if the unanchored
pattern #[A-Za-z0-9]{5}: matches somewhere in the line, and any line without
such a match is an Opaque line holding the raw text. -/
theorem classify_note_requires_match (s : String) :
    (∀ n, Line.new s = .ok (.note n) → line_is_note s = true) ∧
    (line_is_note s = false → Line.new s = .ok (.generic ⟨s⟩)) := by
  cases hn : line_is_note s
  · constructor
    · intro n h
      simp only [Line.new, hn, Bool.false_eq_true, if_false] at h
      cases h
    · intro _
      simp [Line.new, hn]
  · exact ⟨fun _ _ => rfl, fun h => by cases h⟩

/-- Witness for C4 (amended) at the line "abc" (no match, Opaque). -/
theorem classify_note_requires_match_witness :
    (∀ n, Line.new "abc" = .ok (.note n) → line_is_note "abc" = true) ∧
    (line_is_note "abc" = false → Line.new "abc" = .ok (.generic ⟨"abc"⟩)) :=
  classify_note_requires_match "abc"

/-! ## Claim C6: the channel is parsed as decimal, not base 36 -/

/-- Counterexample to C6: "#00111:" parses with channel 11 — the decimal
value of "11" — not 37, its base-36 value; and "#0011A:", whose channel
token contains a letter, is not accepted as a Note Line at all. -/
theorem channel_decimal_counterexample :
    Line.new "#00111:" = .ok (.note ⟨1, 11, []⟩) ∧
    as_id "11" = .ok 37 ∧ (11 : Nat) ≠ 37 ∧
    Line.new "#0011A:" = .ok (.generic ⟨"#0011A:"⟩) := by decide

theorem note_new_fields (s : String) (n : Note) (h : Note.new s = .ok (some n)) :
    radix10Parse ((s.data.drop 1).take 3) = .ok n.measure ∧
    radix10Parse ((s.data.drop 4).take 2) = .ok n.channel := by
  simp only [Note.new] at h
  split at h
  · simp at h
  · split at h
    · simp at h
    next mv hmv =>
      split at h
      · simp at h
      next cv hcv =>
        split at h
        · simp only [PResult.ok.injEq, Option.some.injEq] at h
          rw [← h]
          exact ⟨hmv, hcv⟩
        next body hbody =>
          split at h
          · simp at h
          · simp at h
          next ks hks =>
            simp only [PResult.ok.injEq, Option.some.injEq] at h
            rw [← h]
            exact ⟨hmv, hcv⟩

theorem line_new_note (s : String) (n : Note) (h : Line.new s = .ok (.note n)) :
    Note.new s = .ok (some n) := by
  simp only [Line.new] at h
  split at h
  · split at h
    · simp at h
    next m hm =>
      simp only [PResult.ok.injEq, Line.note.injEq] at h
      rw [← h]
      exact hm
    next hm => simp at h
  · simp at h

/-- Claim C6 (amended): the channel of every parsed Note Line is characters
4-5 of the line parsed as a decimal u32 (str::parse::<u32>), so base-36
tokens containing letters are rejected and such lines degrade to Opaque. -/
theorem channel_parsed_as_decimal (s : String) (n : Note)
    (h : Line.new s = .ok (.note n)) :
    radix10Parse ((s.data.drop 4).take 2) = .ok n.channel :=
  (note_new_fields s n (line_new_note s n h)).2

/-- Witness for C6 (amended) at "#00101:" (channel token "01", value 1). -/
theorem channel_parsed_as_decimal_witness :
    radix10Parse ((("#00101:" : String).data.drop 4).take 2) = .ok (Note.mk 1 1 []).channel :=
  channel_parsed_as_decimal "#00101:" ⟨1, 1, []⟩ (by decide)

/-! ## Claim C10: GenericLine::is_empty is inverted -/

/-- Claim C10: GenericLine::is_empty returns true exactly when the stored
line has length greater than zero, i.e. exactly when the line is not the
empty string (the opposite of the usual is_empty convention). -/
theorem is_empty_iff (g : GenericLine) :
    (g.is_empty = true ↔ 0 < g.len) ∧ (g.is_empty = true ↔ g.line ≠ "") := by
  obtain ⟨⟨cs⟩⟩ := g
  have hdata : (String.mk cs = "") ↔ cs = [] := by
    constructor
    · intro h
      exact String.data_eq_of_eq h
    · intro h
      rw [h]
  simp only [GenericLine.is_empty, GenericLine.len, decide_eq_true_eq, String.utf8ByteSize_mk]
  refine ⟨trivial, ?_⟩
  rw [ne_eq, hdata]
  have := @String.utf8Len_eq_zero cs
  constructor
  · intro h hc
    rw [hc] at h
    simp at h
  · intro h
    have hne : String.utf8Len cs ≠ 0 := fun h0 => h (this.mp h0)
    omega

/-! ## Claim C5: note round-trip needs canonical input -/

/-- Counterexample to C5: "#00101:0a" matches the note grammar and parses
(slot "0a" decodes case-insensitively to 10), but re-serialization renders
the slot in canonical uppercase, producing "#00101:0A" ≠ the input. -/
theorem note_round_trip_counterexample :
    Note.new "#00101:0a" = .ok (some ⟨1, 1, [10]⟩) ∧
    Note.toText ⟨1, 1, [10]⟩ = "#00101:0A" ∧
    ("#00101:0A" : String) ≠ "#00101:0a" := by decide

/-! ## Decimal parse / format inverses on canonical digits -/

theorem radix10Parse_two {a b : Nat} (ha : a < 10) (hb : b < 10) :
    radix10Parse [canonChar a, canonChar b] = .ok (10 * a + b) := by
  have fa := decChar_facts a ha
  have fb := decChar_facts b hb
  have na := (canonChar_facts a (by omega)).2.2.2.1
  rw [radix10Parse, if_neg (by simp [na])]
  rw [radix10Go, fa.1]
  simp only []
  rw [if_pos (by omega)]
  rw [radix10Go, fb.1]
  simp only []
  rw [if_pos (by omega)]
  rw [radix10Go]
  congr 1
  omega

theorem radix10Parse_three {a b c : Nat} (ha : a < 10) (hb : b < 10) (hc : c < 10) :
    radix10Parse [canonChar a, canonChar b, canonChar c] = .ok (100 * a + 10 * b + c) := by
  have fa := decChar_facts a ha
  have fb := decChar_facts b hb
  have fc := decChar_facts c hc
  have na := (canonChar_facts a (by omega)).2.2.2.1
  rw [radix10Parse, if_neg (by simp [na])]
  rw [radix10Go, fa.1]
  simp only []
  rw [if_pos (by omega)]
  rw [radix10Go, fb.1]
  simp only []
  rw [if_pos (by omega)]
  rw [radix10Go, fc.1]
  simp only []
  rw [if_pos (by omega)]
  rw [radix10Go]
  congr 1
  omega

theorem toDigitsGo10_small {f n : Nat} (hf : 0 < f) (h : n < 10) :
    toDigitsGo10 f n = [digitChar10 n] := by
  obtain ⟨m, rfl⟩ : ∃ m, f = m + 1 := ⟨f - 1, by omega⟩
  simp [toDigitsGo10, h]

theorem toDigitsGo10_two {f n : Nat} (hf : 2 ≤ f) (h1 : 10 ≤ n) (h2 : n < 100) :
    toDigitsGo10 f n = [digitChar10 (n / 10), digitChar10 (n % 10)] := by
  obtain ⟨m, rfl⟩ : ∃ m, f = m + 1 := ⟨f - 1, by omega⟩
  rw [toDigitsGo10, if_neg (by omega), toDigitsGo10_small (by omega) (by omega)]
  rfl

theorem toDigits10_three {n : Nat} (h1 : 100 ≤ n) (h2 : n < 1000) :
    toDigits10 n = [digitChar10 (n / 100), digitChar10 (n / 10 % 10), digitChar10 (n % 10)] := by
  rw [toDigits10]
  show toDigitsGo10 (n + 1) n = _
  rw [toDigitsGo10, if_neg (by omega), toDigitsGo10_two (by omega) (by omega) (by omega)]
  rw [Nat.div_div_eq_div_mul]
  rfl

theorem zeroPad3_digits {a b c : Nat} (ha : a < 10) (hb : b < 10) (hc : c < 10) :
    zeroPad 3 (toDigits10 (100 * a + 10 * b + c)) = [canonChar a, canonChar b, canonChar c] := by
  have fa := (decChar_facts a ha).2.2
  have fb := (decChar_facts b hb).2.2
  have fc := (decChar_facts c hc).2.2
  by_cases h3 : 100 ≤ 100 * a + 10 * b + c
  · rw [toDigits10_three h3 (by omega)]
    have e1 : (100 * a + 10 * b + c) / 100 = a := by omega
    have e2 : (100 * a + 10 * b + c) / 10 % 10 = b := by omega
    have e3 : (100 * a + 10 * b + c) % 10 = c := by omega
    rw [e1, e2, e3, fa, fb, fc]
    rfl
  · have haz : a = 0 := by omega
    by_cases h2 : 10 ≤ 10 * b + c
    · rw [haz]
      simp only [Nat.mul_zero, Nat.zero_add]
      rw [show toDigits10 (10 * b + c) = toDigitsGo10 (10 * b + c + 1) (10 * b + c) from rfl]
      rw [toDigitsGo10_two (by omega) h2 (by omega)]
      have e2 : (10 * b + c) / 10 = b := by omega
      have e3 : (10 * b + c) % 10 = c := by omega
      rw [e2, e3, fb, fc]
      have : canonChar 0 = '0' := rfl
      rw [haz] at fa
      simp [zeroPad, ← fa]
      rfl
    · have hbz : b = 0 := by omega
      rw [haz, hbz]
      simp only [Nat.mul_zero, Nat.zero_add]
      rw [show toDigits10 c = toDigitsGo10 (c + 1) c from rfl]
      rw [toDigitsGo10_small (by omega) (by omega), fc]
      rw [haz] at fa
      rw [hbz] at fb
      simp [zeroPad, ← fa, ← fb]
      rfl

theorem zeroPad2_digits {a b : Nat} (ha : a < 10) (hb : b < 10) :
    zeroPad 2 (toDigits10 (10 * a + b)) = [canonChar a, canonChar b] := by
  have fa := (decChar_facts a ha).2.2
  have fb := (decChar_facts b hb).2.2
  by_cases h2 : 10 ≤ 10 * a + b
  · rw [show toDigits10 (10 * a + b) = toDigitsGo10 (10 * a + b + 1) (10 * a + b) from rfl]
    rw [toDigitsGo10_two (by omega) h2 (by omega)]
    have e1 : (10 * a + b) / 10 = a := by omega
    have e2 : (10 * a + b) % 10 = b := by omega
    rw [e1, e2, fa, fb]
    rfl
  · have haz : a = 0 := by omega
    rw [haz]
    simp only [Nat.mul_zero, Nat.zero_add]
    rw [show toDigits10 b = toDigitsGo10 (b + 1) b from rfl]
    rw [toDigitsGo10_small (by omega) (by omega), fb]
    rw [haz] at fa
    simp [zeroPad, ← fa]
    rfl

/-! ## Canonical slot pairs -/

theorem canon_pair {x y : Char} (hx : isCanonSlotChar x = true) (hy : isCanonSlotChar y = true) :
    ∃ v, v < 1296 ∧ as_id (String.mk [x, y]) = .ok v ∧ (as_str v).data = [x, y] := by
  obtain ⟨d1, hd1, rfl⟩ := exists_canon_of_isCanonSlotChar hx
  obtain ⟨d2, hd2, rfl⟩ := exists_canon_of_isCanonSlotChar hy
  refine ⟨36 * d1 + d2, by omega, by rw [as_id_canonPair hd1 hd2], ?_⟩
  rw [as_str_canon (by omega)]
  have e1 : (36 * d1 + d2) / 36 = d1 := by omega
  have e2 : (36 * d1 + d2) % 36 = d2 := by omega
  rw [e1, e2]

theorem collect_serialize_aux :
    ∀ (N : Nat) (body : List Char), body.length ≤ N →
      body.all isCanonSlotChar = true → body.length % 2 = 0 →
      ∃ ids, collectKeysounds body = .ok (some ids) ∧ keysoundChars ids = body := by
  intro N
  induction N with
  | zero =>
    intro body hlen _ _
    have : body = [] := List.eq_nil_of_length_eq_zero (by omega)
    subst this
    exact ⟨[], rfl, rfl⟩
  | succ N ih =>
    intro body hlen hall heven
    match body with
    | [] => exact ⟨[], rfl, rfl⟩
    | [x] => simp at heven
    | x :: y :: rest =>
      simp only [List.all_cons, Bool.and_eq_true] at hall
      obtain ⟨hx, hy, hrest⟩ := hall
      have hlen' : rest.length ≤ N := by
        simp only [List.length_cons] at hlen
        omega
      have heven' : rest.length % 2 = 0 := by
        simp only [List.length_cons] at heven
        omega
      obtain ⟨v, hv, hid, hstr⟩ := canon_pair hx hy
      obtain ⟨ids, hc, hk⟩ := ih rest hlen' hrest heven'
      refine ⟨v :: ids, ?_, ?_⟩
      · rw [collectKeysounds, hid]
        simp only []
        rw [hc]
      · simp only [keysoundChars, List.map_cons, List.flatten_cons]
        have hw : fmtWidth2 (as_str v) = [x, y] := by
          rw [fmtWidth2, hstr]
          simp
        rw [hw]
        simp only [keysoundChars] at hk
        rw [hk]
        rfl

theorem collect_serialize {body : List Char} (hall : body.all isCanonSlotChar = true)
    (heven : body.length % 2 = 0) :
    ∃ ids, collectKeysounds body = .ok (some ids) ∧ keysoundChars ids = body :=
  collect_serialize_aux body.length body (Nat.le_refl _) hall heven

theorem afterColon_shape {d1 d2 d3 c1 c2 : Char} {body : List Char}
    (h1 : d1 ≠ ':') (h2 : d2 ≠ ':') (h3 : d3 ≠ ':') (h4 : c1 ≠ ':') (h5 : c2 ≠ ':') :
    afterColon ('#' :: d1 :: d2 :: d3 :: c1 :: c2 :: ':' :: body) = some body := by
  rw [afterColon, if_neg (by decide)]
  rw [afterColon, if_neg h1, afterColon, if_neg h2, afterColon, if_neg h3]
  rw [afterColon, if_neg h4, afterColon, if_neg h5]
  rw [afterColon, if_pos rfl]

/-- Claim C5 (amended): round-trip holds for canonically written Note
Lines — measure and channel given as decimal digits and slots as uppercase
base-36 tokens.  Parsing such a line succeeds and re-serialization
reproduces it exactly. -/
theorem note_round_trip_canonical (s : String) (h : wfCanonicalNote s = true) :
    ∃ n, Note.new s = .ok (some n) ∧ Note.toText n = s := by
  simp only [wfCanonicalNote] at h
  split at h
  case h_2 => cases h
  next d1 d2 d3 ch1 ch2 body heq =>
    simp only [Bool.and_eq_true, beq_iff_eq] at h
    obtain ⟨⟨⟨⟨⟨⟨hd1, hd2⟩, hd3⟩, hc1⟩, hc2⟩, hall⟩, heven⟩ := h
    obtain ⟨a, ha, rfl⟩ := exists_dec_of_isDecDigitChar hd1
    obtain ⟨b, hb, rfl⟩ := exists_dec_of_isDecDigitChar hd2
    obtain ⟨c, hc, rfl⟩ := exists_dec_of_isDecDigitChar hd3
    obtain ⟨e, he, rfl⟩ := exists_dec_of_isDecDigitChar hc1
    obtain ⟨f, hf, rfl⟩ := exists_dec_of_isDecDigitChar hc2
    have alnum : ∀ d, d < 36 → isAlnumChar (canonChar d) = true := fun d hd =>
      (canonChar_facts d hd).2.2.2.2.2.1
    have nocolon : ∀ d, d < 36 → canonChar d ≠ ':' := fun d hd =>
      (canonChar_facts d hd).2.2.2.2.1
    have hnote : line_is_note s = true := by
      rw [line_is_note, heq]
      simp only [hasNoteMatch, matchesNoteAt, alnum a (by omega), alnum b (by omega),
        alnum c (by omega), alnum e (by omega), alnum f (by omega), Bool.and_self,
        Bool.true_or, Bool.and_true]
    have hm : radix10Parse ((s.data.drop 1).take 3) = .ok (100 * a + 10 * b + c) := by
      rw [heq]
      exact radix10Parse_three ha hb hc
    have hch : radix10Parse ((s.data.drop 4).take 2) = .ok (10 * e + f) := by
      rw [heq]
      exact radix10Parse_two he hf
    have hac : afterColon s.data = some body := by
      rw [heq]
      exact afterColon_shape (nocolon a (by omega)) (nocolon b (by omega))
        (nocolon c (by omega)) (nocolon e (by omega)) (nocolon f (by omega))
    obtain ⟨ids, hcol, hser⟩ := collect_serialize hall heven
    refine ⟨⟨100 * a + 10 * b + c, 10 * e + f, ids⟩, ?_, ?_⟩
    · simp only [Note.new, hnote, hm, hch, hac, hcol]
      simp
    · show String.mk ('#' :: zeroPad 3 (toDigits10 (100 * a + 10 * b + c))
        ++ zeroPad 2 (toDigits10 (10 * e + f)) ++ ':' :: keysoundChars ids) = s
      rw [zeroPad3_digits ha hb hc, zeroPad2_digits he hf, hser]
      simp only [List.cons_append, List.nil_append]
      rw [← heq]

/-- Witness for C5 (amended) at the spec's own example line. -/
theorem note_round_trip_canonical_witness :
    wfCanonicalNote "#05014:7H7I7P7H7I7P7K7I7P7H7I7P7H7I7P7H" = true ∧
    ∃ n, Note.new "#05014:7H7I7P7H7I7P7K7I7P7H7I7P7H7I7P7H" = .ok (some n) ∧
      Note.toText n = "#05014:7H7I7P7H7I7P7K7I7P7H7I7P7H7I7P7H" :=
  ⟨by decide, note_round_trip_canonical "#05014:7H7I7P7H7I7P7K7I7P7H7I7P7H7I7P7H" (by decide)⟩

/-! ## Claim C7: line routing during document construction -/

theorem from_lines_aux_ne :
    ∀ (ls : List String) (h : List Line) (k : List Keysound) (t : List Line) (bms : BMSFile),
      k ≠ [] → BMSFile.from_lines_aux ls h k t = .ok bms →
      ∃ k' t', bms.head = h ∧ bms.keysounds = k ++ k' ∧ bms.tail = t ++ t' ∧
        (ls.filter isWavLine).map Keysound.from_line =
          k'.map (fun x => PResult.ok (Except.ok x)) ∧
        (ls.filter fun l => !isWavLine l).map Line.new = t'.map PResult.ok := by
  intro ls
  induction ls with
  | nil =>
    intro h k t bms _ hok
    cases hok
    exact ⟨[], [], rfl, by simp, by simp, by simp, by simp⟩
  | cons l rest ih =>
    intro h k t bms hk hok
    rw [BMSFile.from_lines_aux] at hok
    by_cases hw : isWavLine l
    · rw [if_pos hw] at hok
      split at hok
      · cases hok
      · cases hok
      next ks heq =>
        obtain ⟨k', t', h1, h2, h3, h4, h5⟩ := ih h (k ++ [ks]) t bms (by simp) hok
        refine ⟨ks :: k', t', h1, ?_, h3, ?_, ?_⟩
        · rw [h2, List.append_assoc]
          rfl
        · simp only [List.filter_cons, hw, if_true, List.map_cons, heq, h4]
        · simp only [List.filter_cons, hw, Bool.not_true, Bool.false_eq_true, if_false, h5]
    · rw [if_neg hw] at hok
      have hke : k.isEmpty = false := by
        cases k
        · exact absurd rfl hk
        · rfl
      rw [hke] at hok
      simp only [Bool.false_eq_true, if_false] at hok
      split at hok
      · cases hok
      next ln heq =>
        obtain ⟨k', t', h1, h2, h3, h4, h5⟩ := ih h k (t ++ [ln]) bms hk hok
        refine ⟨k', ln :: t', h1, h2, ?_, ?_, ?_⟩
        · rw [h3, List.append_assoc]
          rfl
        · simp only [List.filter_cons, hw, Bool.false_eq_true, if_false, h4]
        · simp only [List.filter_cons, hw, Bool.not_false, if_true, List.map_cons, heq, h5]

theorem from_lines_aux_nil :
    ∀ (ls : List String) (h : List Line) (t : List Line) (bms : BMSFile),
      BMSFile.from_lines_aux ls h [] t = .ok bms →
      ∃ h' k' t', bms.head = h ++ h' ∧ bms.keysounds = k' ∧ bms.tail = t ++ t' ∧
        (headLines ls).map Line.new = h'.map PResult.ok ∧
        (declLines ls).map Keysound.from_line = k'.map (fun x => PResult.ok (Except.ok x)) ∧
        (tailLines ls).map Line.new = t'.map PResult.ok := by
  intro ls
  induction ls with
  | nil =>
    intro h t bms hok
    cases hok
    exact ⟨[], [], [], by simp, rfl, by simp, by simp [headLines], by simp [declLines],
      by simp [tailLines]⟩
  | cons l rest ih =>
    intro h t bms hok
    rw [BMSFile.from_lines_aux] at hok
    by_cases hw : isWavLine l
    · rw [if_pos hw] at hok
      split at hok
      · cases hok
      · cases hok
      next ks heq =>
        obtain ⟨k'', t'', e1, e2, e3, e4, e5⟩ :=
          from_lines_aux_ne rest h ([] ++ [ks]) t bms (by simp) hok
        refine ⟨[], ks :: k'', t'', by simpa using e1, by simpa using e2, e3, ?_, ?_, ?_⟩
        · simp [headLines, hw]
        · simp [declLines, List.filter_cons, hw, heq, e4]
        · simp [tailLines, List.dropWhile_cons, hw, List.filter_cons, e5]
    · rw [if_neg hw] at hok
      simp only [List.isEmpty_nil, if_true] at hok
      split at hok
      · cases hok
      next ln heq =>
        obtain ⟨h'', k'', t'', f1, f2, f3, g1, g2, g3⟩ := ih (h ++ [ln]) t bms hok
        refine ⟨ln :: h'', k'', t'', ?_, f2, f3, ?_, ?_, ?_⟩
        · rw [f1, List.append_assoc]
          rfl
        · simp only [headLines, List.takeWhile_cons, hw] at g1 ⊢
          simp [heq, g1]
        · simp only [declLines, List.filter_cons, hw] at g2 ⊢
          simpa using g2
        · simp only [tailLines, List.dropWhile_cons, hw] at g3 ⊢
          simpa using g3

/-- Claim C7 (amended): every line that starts with #WAV is parsed into the
declaration table no matter where it appears; the non-#WAV lines before the
first #WAV line form head and the non-#WAV lines after it form tail. -/
theorem from_lines_routing (ls : List String) (bms : BMSFile)
    (h : BMSFile.from_lines ls = .ok bms) :
    (headLines ls).map Line.new = bms.head.map PResult.ok ∧
    (declLines ls).map Keysound.from_line =
      bms.keysounds.map (fun x => PResult.ok (Except.ok x)) ∧
    (tailLines ls).map Line.new = bms.tail.map PResult.ok := by
  obtain ⟨h', k', t', hh, hk, ht, H1, H2, H3⟩ := from_lines_aux_nil ls [] [] bms h
  rw [hh, hk, ht]
  simp only [List.nil_append]
  exact ⟨H1, H2, H3⟩

/-- Witness for C7 (amended) on a concrete three-line input whose middle
line is not a declaration. -/
theorem from_lines_routing_witness :
    (headLines ["x", "#WAV01 a.wav", "y"]).map Line.new =
      (BMSFile.mk [.generic ⟨"x"⟩] [⟨1, "a.wav"⟩] [.generic ⟨"y"⟩]).head.map PResult.ok ∧
    (declLines ["x", "#WAV01 a.wav", "y"]).map Keysound.from_line =
      (BMSFile.mk [.generic ⟨"x"⟩] [⟨1, "a.wav"⟩] [.generic ⟨"y"⟩]).keysounds.map
        (fun x => PResult.ok (Except.ok x)) ∧
    (tailLines ["x", "#WAV01 a.wav", "y"]).map Line.new =
      (BMSFile.mk [.generic ⟨"x"⟩] [⟨1, "a.wav"⟩] [.generic ⟨"y"⟩]).tail.map PResult.ok :=
  from_lines_routing ["x", "#WAV01 a.wav", "y"]
    (BMSFile.mk [.generic ⟨"x"⟩] [⟨1, "a.wav"⟩] [.generic ⟨"y"⟩]) (by decide)

/-- Counterexample to C7: a #WAV line appearing after the declaration block
has been interrupted by "x" still lands in the declaration table (2 entries)
while tail receives only "x" (1 line); the claim predicts the second #WAV
line in tail (tail length 2, one declaration). -/
theorem routing_counterexample :
    BMSFile.from_lines ["#WAV01 a.wav", "x", "#WAV02 b.wav"] =
      .ok ⟨[], [⟨1, "a.wav"⟩, ⟨2, "b.wav"⟩], [.generic ⟨"x"⟩]⟩ ∧
    ([(⟨1, "a.wav"⟩ : Keysound), ⟨2, "b.wav"⟩] : List Keysound).length ≠ 1 ∧
    ([Line.generic ⟨"x"⟩] : List Line).length ≠ 2 := by decide

/-! ## Claim C8: malformed declarations panic, they are not returned -/

theorem from_lines_aux_bad_decl :
    ∀ (pre : List String) (h : List Line) (k : List Keysound) (t : List Line)
      (l : String) (post : List String),
      isWavLine l = true → Keysound.from_line l = .ok (.error ()) →
      BMSFile.from_lines_aux (pre ++ l :: post) h k t = .panicked := by
  intro pre
  induction pre with
  | nil =>
    intro h k t l post hw hbad
    rw [List.nil_append, BMSFile.from_lines_aux, if_pos hw, hbad]
  | cons p rest ih =>
    intro h k t l post hw hbad
    rw [List.cons_append, BMSFile.from_lines_aux]
    by_cases hp : isWavLine p
    · rw [if_pos hp]
      cases hfl : Keysound.from_line p with
      | panicked => rfl
      | ok r =>
        cases r with
        | error e => rfl
        | ok ks => exact ih h (k ++ [ks]) t l post hw hbad
    · rw [if_neg hp]
      cases hk : k.isEmpty with
      | true =>
        rw [if_pos rfl]
        cases hln : Line.new p with
        | panicked => rfl
        | ok ln => exact ih (h ++ [ln]) k t l post hw hbad
      | false =>
        rw [if_neg (by simp)]
        cases hln : Line.new p with
        | panicked => rfl
        | ok ln => exact ih h k (t ++ [ln]) l post hw hbad

/-- Claim C8 (amended): a declaration line whose ID token fails to decode
aborts the whole load by a panic — no document is produced and no error
value is returned; the line is never degraded and processing never
continues past it. -/
theorem malformed_decl_panics (pre post : List String) (l : String)
    (hw : isWavLine l = true) (hbad : Keysound.from_line l = .ok (.error ())) :
    BMSFile.from_lines (pre ++ l :: post) = .panicked :=
  from_lines_aux_bad_decl pre [] [] [] l post hw hbad

/-- Witness for C8 (amended) at the single-line input "#WAV!! f.wav". -/
theorem malformed_decl_panics_witness :
    isWavLine "#WAV!! f.wav" = true ∧
    Keysound.from_line "#WAV!! f.wav" = .ok (.error ()) ∧
    BMSFile.from_lines ([] ++ "#WAV!! f.wav" :: []) = .panicked :=
  ⟨by decide, by decide, malformed_decl_panics [] [] "#WAV!! f.wav" (by decide) (by decide)⟩

/-- Counterexample to C8: on the input ["#WAV!! f.wav"] the load panics; it
does not return at all, so in particular no error value reaches the
caller. -/
theorem malformed_decl_counterexample :
    BMSFile.from_lines ["#WAV!! f.wav"] = .panicked := by decide

/-! ## Claim C9: duplicate-ID lookup returns the first declaration -/

theorem find?_first {α : Type} (p : α → Bool) :
    ∀ (pre : List α) (x : α) (rest : List α), (∀ y ∈ pre, p y = false) → p x = true →
      List.find? p (pre ++ x :: rest) = some x := by
  intro pre
  induction pre with
  | nil =>
    intro x rest _ hx
    rw [List.nil_append, List.find?_cons_of_pos _ hx]
  | cons a as ih =>
    intro x rest hpre hx
    have ha : ¬ p a = true := by simp [hpre a (by simp)]
    rw [List.cons_append, List.find?_cons_of_neg _ ha]
    exact ih x rest (fun y hy => hpre y (by simp [hy])) hx

theorem toText_mem_serialize (b : BMSFile) (k : Keysound) (hk : k ∈ b.keysounds) :
    Keysound.toText k ∈ b.serializeStrings := by
  rw [BMSFile.serializeStrings]
  apply List.mem_append.mpr
  left
  apply List.mem_append.mpr
  right
  exact List.mem_map_of_mem _ hk

/-- Claim C9 (amended): when several declarations share an ID, get_keysound
returns the EARLIEST one in file order (Vec::find), not the later one; all
of the duplicate declarations still appear in the serialized output. -/
theorem get_keysound_first_match (b : BMSFile) (id : Nat)
    (pre mid post : List Keysound) (k1 k2 : Keysound)
    (hdecomp : b.keysounds = pre ++ k1 :: (mid ++ k2 :: post))
    (h1 : k1.keysound_id = id) (_h2 : k2.keysound_id = id)
    (hpre : ∀ k ∈ pre, k.keysound_id ≠ id) :
    b.get_keysound id = some k1 ∧
    Keysound.toText k1 ∈ b.serializeStrings ∧
    Keysound.toText k2 ∈ b.serializeStrings := by
  refine ⟨?_, ?_, ?_⟩
  · rw [BMSFile.get_keysound, hdecomp]
    exact find?_first _ pre k1 _ (fun y hy => by simp [hpre y hy]) (by simp [h1])
  · exact toText_mem_serialize b k1 (by rw [hdecomp]; simp)
  · exact toText_mem_serialize b k2 (by rw [hdecomp]; simp)

/-- Witness for C9 (amended) on a document holding two declarations with
the same ID 1. -/
theorem get_keysound_first_match_witness :
    (BMSFile.mk [] [⟨1, "a.wav"⟩, ⟨1, "b.wav"⟩] []).get_keysound 1 = some ⟨1, "a.wav"⟩ ∧
    Keysound.toText ⟨1, "a.wav"⟩ ∈ (BMSFile.mk [] [⟨1, "a.wav"⟩, ⟨1, "b.wav"⟩] []).serializeStrings ∧
    Keysound.toText ⟨1, "b.wav"⟩ ∈ (BMSFile.mk [] [⟨1, "a.wav"⟩, ⟨1, "b.wav"⟩] []).serializeStrings :=
  get_keysound_first_match (BMSFile.mk [] [⟨1, "a.wav"⟩, ⟨1, "b.wav"⟩] []) 1
    [] [] [] ⟨1, "a.wav"⟩ ⟨1, "b.wav"⟩ rfl rfl rfl (by simp)

/-- Counterexample to C9: both declarations parse into the table in file
order, lookup of ID 1 returns the FIRST one ("a.wav"), and the two
declarations are distinct — the claim predicts the later one ("b.wav"). -/
theorem duplicate_id_lookup_counterexample :
    BMSFile.from_lines ["#WAV01 a.wav", "#WAV01 b.wav"] =
      .ok ⟨[], [⟨1, "a.wav"⟩, ⟨1, "b.wav"⟩], []⟩ ∧
    BMSFile.get_keysound ⟨[], [⟨1, "a.wav"⟩, ⟨1, "b.wav"⟩], []⟩ 1 = some ⟨1, "a.wav"⟩ ∧
    (⟨1, "a.wav"⟩ : Keysound) ≠ ⟨1, "b.wav"⟩ := by decide

end BmsJoin
